import Mathlib

/-!
Verification development for the USB Cellular Airbridge service.

The Python source (main.py, modem_handler.py) is shallowly embedded:
pure control flow becomes Lean functions, the serial transport and the
modem's replies become explicit environment parameters, machine time
becomes natural-number (or integer) timestamps, and side effects
(AT commands written, sleeps, progress-file writes) become explicit
event traces returned alongside each result.
-/

namespace Airbridge

/-- Model of the Python substring test `needle in hay` on the character
list of the haystack. -/
def pyInL (needle : List Char) : List Char → Bool
  | [] => needle.isEmpty
  | c :: t => needle.isPrefixOf (c :: t) || pyInL needle t

/-- Model of the Python substring test `needle in hay` for strings. -/
def pyIn (needle hay : String) : Bool :=
  pyInL needle.data hay.data

/-!
Command Transaction Engine: `SIM7000GHandler.send_at` (modem_handler.py,
lines 15-33).  The serial transport is modelled by `inc : Nat → String`,
the decoded text that arrives during poll tick `t` (the empty string
models `in_waiting == 0`).  `fuel` is the number of 50 ms poll ticks that
fit in the timeout.  The accumulated response starts empty because the
code clears the input buffer before writing the command.
-/

/-- Polling loop of `send_at`: accumulate arriving text; as soon as the
expected token or the literal token ERROR occurs in the accumulated
response, return `(expected in response, response)`; when the fuel (the
timeout) is exhausted return `(false, response)`. -/
def sendAtGo (inc : Nat → String) (expected : String) :
    Nat → Nat → String → Bool × String
  | 0, _, acc => (false, acc)
  | fuel + 1, t, acc =>
    let chunk := inc t
    if chunk.isEmpty then
      sendAtGo inc expected fuel (t + 1) acc
    else
      let acc2 := acc ++ chunk
      if pyIn expected acc2 || pyIn "ERROR" acc2 then
        (pyIn expected acc2, acc2)
      else
        sendAtGo inc expected fuel (t + 1) acc2

/-- `send_at` with a cleared input buffer: the whole transaction of the
Command Transaction Engine. -/
def send_at (inc : Nat → String) (expected : String) (fuel : Nat) :
    Bool × String :=
  sendAtGo inc expected fuel 0 ""

/-- On every return path of the polling loop, the boolean result equals
the substring test of the expected token against the returned response,
provided neither token was already present in the starting accumulator. -/
theorem sendAtGo_matched_iff (inc : Nat → String) (expected : String) :
    ∀ (fuel t : Nat) (acc : String),
      pyIn expected acc = false → pyIn "ERROR" acc = false →
      (sendAtGo inc expected fuel t acc).1 =
        pyIn expected (sendAtGo inc expected fuel t acc).2 := by
  intro fuel
  induction fuel with
  | zero =>
    intro t acc h1 _
    simp [sendAtGo, h1]
  | succ n ih =>
    intro t acc h1 h2
    unfold sendAtGo
    by_cases hc : (inc t).isEmpty
    · simp only [hc, if_true]
      exact ih (t + 1) acc h1 h2
    · simp only [hc, if_false]
      by_cases hm : (pyIn expected (acc ++ inc t) ||
          pyIn "ERROR" (acc ++ inc t)) = true
      · simp [hm]
      · simp only [hm, if_false]
        have hm' := hm
        rw [Bool.or_eq_true] at hm'
        push_neg at hm'
        have he : pyIn expected (acc ++ inc t) = false := by
          cases h : pyIn expected (acc ++ inc t) with
          | false => rfl
          | true => exact absurd h hm'.1
        have hE : pyIn "ERROR" (acc ++ inc t) = false := by
          cases h : pyIn "ERROR" (acc ++ inc t) with
          | false => rfl
          | true => exact absurd h hm'.2
        exact ih (t + 1) (acc ++ inc t) he hE

/-- The polling loop only inspects the transport at ticks `t, …, t+fuel-1`:
two transports agreeing on that window give identical transactions. -/
theorem sendAtGo_bounded (expected : String) :
    ∀ (fuel t : Nat) (acc : String) (inc inc' : Nat → String),
      (∀ u, u < fuel → inc (t + u) = inc' (t + u)) →
      sendAtGo inc expected fuel t acc = sendAtGo inc' expected fuel t acc := by
  intro fuel
  induction fuel with
  | zero => intro t acc inc inc' _; rfl
  | succ n ih =>
    intro t acc inc inc' hagree
    have h0 : inc t = inc' t := by
      have := hagree 0 (Nat.succ_pos n)
      simpa using this
    have hrest : ∀ u, u < n → inc (t + 1 + u) = inc' (t + 1 + u) := by
      intro u hu
      have := hagree (1 + u) (by omega)
      have harr : t + (1 + u) = t + 1 + u := by omega
      rwa [harr] at this
    unfold sendAtGo
    rw [h0]
    by_cases hc : (inc' t).isEmpty
    · simp only [hc, if_true]
      exact ih (t + 1) acc inc inc' hrest
    · simp only [hc, if_false]
      by_cases hm : (pyIn expected (acc ++ inc' t) ||
          pyIn "ERROR" (acc ++ inc' t)) = true
      · simp [hm]
      · simp only [hm, if_false]
        exact ih (t + 1) (acc ++ inc' t) inc inc' hrest

/-- A non-empty needle is not a substring of the empty accumulator. -/
theorem pyIn_empty_hay (e : String) (h : e ≠ "") : pyIn e "" = false := by
  unfold pyIn pyInL
  cases e with
  | mk l =>
    cases l with
    | nil => exact absurd rfl h
    | cons c t => rfl

/-- Claim C4 (corrected): the claim asserts that an appearance of the
literal token ERROR ends the transaction with `matched = false`.  On the
code, ERROR does end the transaction, but the returned flag is the
substring test of the expected token: when a single read delivers both
ERROR and the expected token, `send_at` returns `matched = true`.
Concretely, with expected token OK and the transport delivering the text
ERROR OK in one poll, the result is matched with ERROR in the response. -/
theorem C4_counterexample :
    (send_at (fun _ => "ERROR OK") "OK" 5).1 = true ∧
    pyIn "ERROR" (send_at (fun _ => "ERROR OK") "OK" 5).2 = true := by
  constructor <;> rfl

/-- Claim C4 (amended): for every `send(command, expected_token, timeout)`
transaction with a non-empty expected token, the result has
`matched = true` if and only if the expected token appears in the
accumulated response (in particular, an appearance of ERROR ends the
transaction and yields `matched = false` unless the expected token also
appeared, and a timeout with neither token yields `matched = false`);
and the call never inspects the transport beyond the timeout window, so
it always returns within `timeout`. -/
theorem C4_transaction_engine (inc : Nat → String) (expected : String)
    (fuel : Nat) (hne : expected ≠ "") :
    (send_at inc expected fuel).1 =
      pyIn expected (send_at inc expected fuel).2 ∧
    (∀ inc' : Nat → String, (∀ u, u < fuel → inc u = inc' u) →
      send_at inc expected fuel = send_at inc' expected fuel) := by
  constructor
  · exact sendAtGo_matched_iff inc expected fuel 0 ""
      (pyIn_empty_hay expected hne) (pyIn_empty_hay "ERROR" (by decide))
  · intro inc' hagree
    exact sendAtGo_bounded expected fuel 0 "" inc inc' (by simpa using hagree)

/-- Witness for the amended claim C4 at a concrete transport. -/
theorem C4_transaction_engine_witness :
    ((send_at (fun _ => "AT\r\nOK\r\n") "OK" 3).1 =
      pyIn "OK" (send_at (fun _ => "AT\r\nOK\r\n") "OK" 3).2 ∧
    (∀ inc' : Nat → String,
      (∀ u, u < 3 → (fun _ => "AT\r\nOK\r\n") u = inc' u) →
      send_at (fun _ => "AT\r\nOK\r\n") "OK" 3 = send_at inc' "OK" 3)) :=
  C4_transaction_engine (fun _ => "AT\r\nOK\r\n") "OK" 3 (by decide)

/-!
Resumable FTP Transfer Engine: `SIM7000GHandler.upload_ftp` together with
`load_progress` / `save_progress` / `clear_progress` (modem_handler.py,
lines 100-278).  The local file is its byte list `content`; the persisted
progress file is an `Option ProgressRecord`; the modem's replies to the
session-open wait, the per-chunk prompt/acknowledgement waits and the
final close wait are an `UploadEnv`; commands written, sleeps and
progress-file operations are collected in an event trace.
-/

/-- Persisted progress record (`/tmp/airbridge_upload_progress.json`). -/
structure ProgressRecord where
  filepath : String
  bytes_sent : Nat
  timestamp : Nat
deriving DecidableEq, Repr

/-- `SIM7000GHandler.load_progress`: the stored byte count if the record
names the same file and is less than one hour (3600 s) old, else 0. -/
def load_progress (rec : Option ProgressRecord) (fp : String) (now : Nat) :
    Nat :=
  match rec with
  | none => 0
  | some p =>
    if p.filepath = fp ∧ now - p.timestamp < 3600 then p.bytes_sent else 0

/-- Observable event of one `upload_ftp` call. -/
inductive Ev where
  | cfg (cmd : String)
  | putOpen
  | announce (len : Nat)
  | dataOut (bytes : List Nat)
  | sleepR (secs : Nat)
  | save (fp : String) (bytesSent : Nat)
  | clear
  | closeCmd
deriving DecidableEq, Repr

/-- Outcome of one delivery attempt for one chunk: the prompt wait times
out, or the prompt arrives but the acknowledgement wait times out, or
both succeed. -/
inductive Outcome where
  | promptFail
  | ackFail
  | ok
deriving DecidableEq, Repr

/-- Modem-side environment of one `upload_ftp` call. -/
structure UploadEnv where
  openOk : Bool
  reportedMax : Option Nat
  attempt : Nat → Nat → Outcome
  closeOk : Bool
  now : Nat

/-- Retry loop for one chunk (modem_handler.py, lines 226-250): announce
the chunk length, await the data-ready prompt, write the raw bytes, await
the acknowledgement; a timed-out stage is one failed attempt, followed by
a `retry_delay` sleep when further attempts remain.  `fuel` is the number
of attempts remaining, `i` the current attempt index.  Returns whether
the chunk was delivered, and the events of this loop. -/
def chunkRetry (out : Nat → Outcome) (d : Nat) (chunk : List Nat) :
    Nat → Nat → Bool × List Ev
  | 0, _ => (false, [])
  | fuel + 1, i =>
    match out i with
    | Outcome.promptFail =>
      let r := chunkRetry out d chunk fuel (i + 1)
      (r.1, Ev.announce chunk.length ::
        (if 0 < fuel then Ev.sleepR d :: r.2 else r.2))
    | Outcome.ackFail =>
      let r := chunkRetry out d chunk fuel (i + 1)
      (r.1, Ev.announce chunk.length :: Ev.dataOut chunk ::
        (if 0 < fuel then Ev.sleepR d :: r.2 else r.2))
    | Outcome.ok => (true, [Ev.announce chunk.length, Ev.dataOut chunk])

/-- Result of the streaming loop of `upload_ftp`. -/
structure StreamOut where
  failAt : Option Nat
  bytesSent : Nat
  prog : Option ProgressRecord
  events : List Ev
deriving Repr

/-- Streaming loop of `upload_ftp` (modem_handler.py, lines 210-264):
while `bytes_sent < filesize`, read up to `maxChunk` bytes; an empty read
ends the loop; a delivered chunk advances `bytes_sent` and persists
progress when `bytes_sent % (500*1024) < maxChunk`; an undelivered chunk
persists progress at the last confirmed offset and fails the upload
there.  `fuel` is an explicit termination measure: every iteration that
recurses shortens `remaining` by at least one byte, so any fuel of at
least `remaining.length + 1` is never exhausted (the caller passes
exactly that). -/
def streamLoop (out : Nat → Nat → Outcome) (fp : String) (now : Nat)
    (maxRetries retryDelay maxChunk filesize : Nat) :
    Nat → List Nat → Nat → Nat → Option ProgressRecord → StreamOut
  | 0, _, _, bytesSent, prog => ⟨none, bytesSent, prog, []⟩
  | fuel + 1, remaining, cIdx, bytesSent, prog =>
    if bytesSent < filesize then
      let chunk := remaining.take maxChunk
      if chunk = [] then ⟨none, bytesSent, prog, []⟩
      else
        let r := chunkRetry (out cIdx) retryDelay chunk maxRetries 0
        if r.1 then
          let bs2 := bytesSent + chunk.length
          let doSave := bs2 % (500 * 1024) < maxChunk
          let prog2 : Option ProgressRecord :=
            if doSave then some ⟨fp, bs2, now⟩ else prog
          let evs2 : List Ev := if doSave then [Ev.save fp bs2] else []
          let rest := streamLoop out fp now maxRetries retryDelay maxChunk
            filesize fuel (remaining.drop maxChunk) (cIdx + 1) bs2 prog2
          ⟨rest.failAt, rest.bytesSent, rest.prog, r.2 ++ evs2 ++ rest.events⟩
        else
          ⟨some bytesSent, bytesSent, some ⟨fp, bytesSent, now⟩,
            r.2 ++ [Ev.save fp bytesSent]⟩
    else ⟨none, bytesSent, prog, []⟩

/-- Result of one `upload_ftp` call. -/
inductive UpResult where
  | fileNotFound
  | openFailed
  | chunkFailed (offset : Nat)
  | closeUnconfirmed (offset : Nat)
  | success
deriving DecidableEq, Repr

/-- Full result of one `upload_ftp` call: the returned status, the final
state of the persisted progress record, and the event trace. -/
structure UpOut where
  result : UpResult
  prog : Option ProgressRecord
  events : List Ev
deriving Repr

/-- FTP session-configuration commands issued fire-and-forget
(modem_handler.py, lines 165-173). -/
def ftpConfigCmds (server : String) (port : Nat)
    (user pass fname rpath : String) : List Ev :=
  [Ev.cfg "AT+FTPCID=1",
   Ev.cfg ("AT+FTPSERV=\"" ++ server ++ "\""),
   Ev.cfg ("AT+FTPPORT=" ++ toString port),
   Ev.cfg "AT+FTPMODE=1",
   Ev.cfg ("AT+FTPUN=\"" ++ user ++ "\""),
   Ev.cfg ("AT+FTPPW=\"" ++ pass ++ "\""),
   Ev.cfg ("AT+FTPPUTNAME=\"" ++ fname ++ "\""),
   Ev.cfg ("AT+FTPPUTPATH=\"" ++ rpath ++ "\""),
   Ev.cfg "AT+FTPTYPE=\"I\""]

/-- Resume-validity test of `upload_ftp` (modem_handler.py, lines
154-160): append mode is used exactly when the loaded progress offset is
strictly between 0 and the file size. -/
def useAppendFlag (rec : Option ProgressRecord) (fp : String)
    (now filesize : Nat) : Bool :=
  decide (0 < load_progress rec fp now ∧ load_progress rec fp now < filesize)

/-- Resume offset of `upload_ftp`: the loaded progress offset when valid
for resume, otherwise 0. -/
def resumeOffset (rec : Option ProgressRecord) (fp : String)
    (now filesize : Nat) : Nat :=
  if useAppendFlag rec fp now filesize
  then load_progress rec fp now else 0

/-- Working chunk size (modem_handler.py, lines 192-196): the minimum of
the modem-reported maximum and the configured chunk size, falling back to
1000 when the session-open reply does not parse. -/
def workingChunk (env : UploadEnv) (chunkSize : Nat) : Nat :=
  match env.reportedMax with
  | some r => min r chunkSize
  | none => 1000

/-- Events issued by `upload_ftp` before (and including) the PUT-session
open: the nine configuration commands, the append-vs-create option
command, and `AT+FTPPUT=1`. -/
def openEvs (progOnDisk : Option ProgressRecord) (fp : String)
    (now filesize : Nat) (server : String) (port : Nat)
    (user pass fname rpath : String) : List Ev :=
  ftpConfigCmds server port user pass fname rpath ++
    [Ev.cfg (if useAppendFlag progOnDisk fp now filesize
             then "AT+FTPPUTOPT=\"APPE\""
             else "AT+FTPPUTOPT=\"STOR\""),
     Ev.putOpen]

/-- The streaming phase of `upload_ftp`: seek the local file to the
resume offset and run the chunk loop over the remaining bytes. -/
def uploadStream (env : UploadEnv) (fp : String) (content : List Nat)
    (progOnDisk : Option ProgressRecord) (chunkSize maxRetries retryDelay :
    Nat) : StreamOut :=
  let resumeFrom := resumeOffset progOnDisk fp env.now content.length
  let rem := content.drop resumeFrom
  streamLoop env.attempt fp env.now maxRetries retryDelay
    (workingChunk env chunkSize) content.length (rem.length + 1) rem 0
    resumeFrom progOnDisk

/-- `SIM7000GHandler.upload_ftp` (modem_handler.py, lines 136-278).
`content` is the local file's bytes, `progOnDisk` the persisted progress
record before the call, `chunkSize` the configured chunk size. -/
def upload_ftp (env : UploadEnv) (fileExists : Bool) (filepath : String)
    (content : List Nat) (progOnDisk : Option ProgressRecord)
    (chunkSize : Nat) (server : String) (port : Nat)
    (user pass fname rpath : String) (maxRetries retryDelay : Nat) :
    UpOut :=
  if !fileExists then ⟨UpResult.fileNotFound, progOnDisk, []⟩
  else
    let evs1 := openEvs progOnDisk filepath env.now content.length server
      port user pass fname rpath
    if !env.openOk then ⟨UpResult.openFailed, progOnDisk, evs1⟩
    else
      let s := uploadStream env filepath content progOnDisk chunkSize
        maxRetries retryDelay
      match s.failAt with
      | some off => ⟨UpResult.chunkFailed off, s.prog, evs1 ++ s.events⟩
      | none =>
        if env.closeOk then
          ⟨UpResult.success, none,
            evs1 ++ s.events ++ [Ev.closeCmd, Ev.clear]⟩
        else
          ⟨UpResult.closeUnconfirmed s.bytesSent,
            some ⟨filepath, s.bytesSent, env.now⟩,
            evs1 ++ s.events ++ [Ev.closeCmd, Ev.save filepath s.bytesSent]⟩

/-- Concatenation of the raw bytes written by the data events of a
trace. -/
def dataBytes : List Ev → List Nat
  | [] => []
  | Ev.dataOut bs :: t => bs ++ dataBytes t
  | _ :: t => dataBytes t

/-- Number of chunk-length announcements in a trace (one per delivery
attempt). -/
def countAnnounce : List Ev → Nat
  | [] => 0
  | Ev.announce _ :: t => countAnnounce t + 1
  | _ :: t => countAnnounce t

/-- Number of retry-backoff sleeps in a trace. -/
def countSleep : List Ev → Nat
  | [] => 0
  | Ev.sleepR _ :: t => countSleep t + 1
  | _ :: t => countSleep t

/-- Event-count and concatenation helpers. -/
theorem dataBytes_append (l1 l2 : List Ev) :
    dataBytes (l1 ++ l2) = dataBytes l1 ++ dataBytes l2 := by
  induction l1 with
  | nil => simp [dataBytes]
  | cons e t ih =>
    cases e <;> simp [dataBytes, ih]

/-- Every event of a chunk-retry trace is the chunk-length announcement,
the raw chunk bytes, or a retry sleep. -/
theorem chunkRetry_mem (out : Nat → Outcome) (d : Nat) (chunk : List Nat) :
    ∀ (fuel i : Nat) (e : Ev), e ∈ (chunkRetry out d chunk fuel i).2 →
      e = Ev.announce chunk.length ∨ e = Ev.dataOut chunk ∨
        e = Ev.sleepR d := by
  intro fuel
  induction fuel with
  | zero => intro i e he; simp [chunkRetry] at he
  | succ n ih =>
    intro i e he
    unfold chunkRetry at he
    cases h : out i with
    | promptFail =>
      rw [h] at he
      by_cases hn : 0 < n <;> simp only [hn, if_true, if_false,
        List.mem_cons] at he
      · rcases he with h1 | h1 | h1
        · exact Or.inl h1
        · exact Or.inr (Or.inr h1)
        · exact ih (i + 1) e h1
      · rcases he with h1 | h1
        · exact Or.inl h1
        · exact ih (i + 1) e h1
    | ackFail =>
      rw [h] at he
      by_cases hn : 0 < n <;> simp only [hn, if_true, if_false,
        List.mem_cons] at he
      · rcases he with h1 | h1 | h1 | h1
        · exact Or.inl h1
        · exact Or.inr (Or.inl h1)
        · exact Or.inr (Or.inr h1)
        · exact ih (i + 1) e h1
      · rcases he with h1 | h1 | h1
        · exact Or.inl h1
        · exact Or.inr (Or.inl h1)
        · exact ih (i + 1) e h1
    | ok =>
      rw [h] at he
      simp only [List.mem_cons, List.mem_singleton] at he
      rcases he with h1 | h1 | h1
      · exact Or.inl h1
      · exact Or.inr (Or.inl h1)
      · simp at h1

/-- A chunk is attempted at most `fuel` times. -/
theorem chunkRetry_announce_le (out : Nat → Outcome) (d : Nat)
    (chunk : List Nat) :
    ∀ (fuel i : Nat),
      countAnnounce (chunkRetry out d chunk fuel i).2 ≤ fuel := by
  intro fuel
  induction fuel with
  | zero => intro i; simp [chunkRetry, countAnnounce]
  | succ n ih =>
    intro i
    unfold chunkRetry
    cases h : out i with
    | promptFail =>
      by_cases hn : 0 < n <;>
        simp only [hn, if_true, if_false, countAnnounce] <;>
        exact Nat.succ_le_succ (ih (i + 1))
    | ackFail =>
      by_cases hn : 0 < n <;>
        simp only [hn, if_true, if_false, countAnnounce] <;>
        exact Nat.succ_le_succ (ih (i + 1))
    | ok => simp [countAnnounce]

/-- An undelivered chunk was attempted exactly `fuel` times, with a
retry-delay sleep after every failed attempt except the last. -/
theorem chunkRetry_fail_counts (out : Nat → Outcome) (d : Nat)
    (chunk : List Nat) :
    ∀ (fuel i : Nat), (chunkRetry out d chunk fuel i).1 = false →
      countAnnounce (chunkRetry out d chunk fuel i).2 = fuel ∧
      countSleep (chunkRetry out d chunk fuel i).2 = fuel - 1 := by
  intro fuel
  induction fuel with
  | zero => intro i _; simp [chunkRetry, countAnnounce, countSleep]
  | succ n ih =>
    intro i hf
    unfold chunkRetry at hf ⊢
    cases h : out i with
    | promptFail =>
      rw [h] at hf
      have hr := ih (i + 1) hf
      rcases Nat.eq_zero_or_pos n with hn | hn
      · subst hn
        simp only [lt_irrefl, if_false, countAnnounce, countSleep]
        simp [chunkRetry, countAnnounce, countSleep] at hr ⊢
      · simp only [hn, if_true, countAnnounce, countSleep]
        omega
    | ackFail =>
      rw [h] at hf
      have hr := ih (i + 1) hf
      rcases Nat.eq_zero_or_pos n with hn | hn
      · subst hn
        simp only [lt_irrefl, if_false, countAnnounce, countSleep]
        simp [chunkRetry, countAnnounce, countSleep] at hr ⊢
      · simp only [hn, if_true, countAnnounce, countSleep]
        omega
    | ok => rw [h] at hf; simp at hf

/-- A chunk whose current attempt succeeds is delivered immediately:
announce, raw bytes, acknowledgement, no further attempt. -/
theorem chunkRetry_ok (out : Nat → Outcome) (d : Nat) (chunk : List Nat)
    (fuel i : Nat) (h : out i = Outcome.ok) (hf : 0 < fuel) :
    chunkRetry out d chunk fuel i =
      (true, [Ev.announce chunk.length, Ev.dataOut chunk]) := by
  cases fuel with
  | zero => exact absurd hf (lt_irrefl 0)
  | succ n => unfold chunkRetry; rw [h]

/-- A chunk-retry trace never touches the progress file. -/
theorem chunkRetry_no_clear (out : Nat → Outcome) (d : Nat)
    (chunk : List Nat) (fuel i : Nat) :
    Ev.clear ∉ (chunkRetry out d chunk fuel i).2 := by
  intro h
  rcases chunkRetry_mem out d chunk fuel i _ h with h1 | h1 | h1 <;>
    simp at h1

/-- A chunk-retry trace never writes the progress file. -/
theorem chunkRetry_no_save (out : Nat → Outcome) (d : Nat)
    (chunk : List Nat) (fuel i : Nat) (f : String) (b : Nat) :
    Ev.save f b ∉ (chunkRetry out d chunk fuel i).2 := by
  intro h
  rcases chunkRetry_mem out d chunk fuel i _ h with h1 | h1 | h1 <;>
    simp at h1

/-- Every length announced inside a chunk-retry trace is the chunk's
length. -/
theorem chunkRetry_announce_len (out : Nat → Outcome) (d : Nat)
    (chunk : List Nat) (fuel i n : Nat)
    (h : Ev.announce n ∈ (chunkRetry out d chunk fuel i).2) :
    n = chunk.length := by
  rcases chunkRetry_mem out d chunk fuel i _ h with h1 | h1 | h1
  · exact (Ev.announce.injEq n chunk.length ▸ congrArg id h1) ▸ by
      cases h1; rfl
  · simp at h1
  · simp at h1

/-- General facts about the streaming loop, for any modem behaviour:
the loop never clears the progress file; when it fails it has persisted
the progress record at exactly the failure offset, which is the byte
count it reports; and every chunk it announces is non-empty. -/
theorem streamLoop_general (out : Nat → Nat → Outcome) (fp : String)
    (now mR rD mC fsz : Nat) :
    ∀ (fuel : Nat) (remaining : List Nat) (cIdx bs : Nat)
      (prog : Option ProgressRecord),
      Ev.clear ∉
        (streamLoop out fp now mR rD mC fsz fuel remaining cIdx bs
          prog).events ∧
      (∀ off,
        (streamLoop out fp now mR rD mC fsz fuel remaining cIdx bs
          prog).failAt = some off →
        (streamLoop out fp now mR rD mC fsz fuel remaining cIdx bs
          prog).prog = some ⟨fp, off, now⟩ ∧
        (streamLoop out fp now mR rD mC fsz fuel remaining cIdx bs
          prog).bytesSent = off ∧
        Ev.save fp off ∈
          (streamLoop out fp now mR rD mC fsz fuel remaining cIdx bs
            prog).events) ∧
      (∀ n, Ev.announce n ∈
        (streamLoop out fp now mR rD mC fsz fuel remaining cIdx bs
          prog).events → 0 < n) := by
  intro fuel
  induction fuel with
  | zero =>
    intro remaining cIdx bs prog
    refine ⟨?_, ?_, ?_⟩ <;> simp [streamLoop]
  | succ m ih =>
    intro remaining cIdx bs prog
    by_cases hbs : bs < fsz
    · by_cases hc : remaining.take mC = []
      · refine ⟨?_, ?_, ?_⟩ <;> simp [streamLoop, hbs, hc]
      · by_cases hr1 : (chunkRetry (out cIdx) rD (remaining.take mC)
            mR 0).1 = true
        · by_cases hds : (bs + (remaining.take mC).length) %
              (500 * 1024) < mC
          · simp only [streamLoop, hbs, if_true, hc, if_false, hr1, hds]
            obtain ⟨ihc, ihf, iha⟩ := ih (remaining.drop mC) (cIdx + 1)
              (bs + (remaining.take mC).length)
              (some ⟨fp, bs + (remaining.take mC).length, now⟩)
            refine ⟨?_, ?_, ?_⟩
            · simp only [List.mem_append, List.mem_singleton]
              rintro ((h | h) | h)
              · exact chunkRetry_no_clear _ _ _ _ _ h
              · simp at h
              · exact ihc h
            · intro off hoff
              obtain ⟨a1, a2, a3⟩ := ihf off hoff
              refine ⟨a1, a2, ?_⟩
              simp only [List.mem_append, List.mem_singleton]
              exact Or.inr a3
            · intro n hn
              simp only [List.mem_append, List.mem_singleton] at hn
              rcases hn with (h | h) | h
              · have := chunkRetry_announce_len _ _ _ _ _ _ h
                subst this
                exact List.length_pos.mpr hc
              · simp at h
              · exact iha n h
          · simp only [streamLoop, hbs, if_true, hc, if_false, hr1, hds]
            obtain ⟨ihc, ihf, iha⟩ := ih (remaining.drop mC) (cIdx + 1)
              (bs + (remaining.take mC).length) prog
            refine ⟨?_, ?_, ?_⟩
            · simp only [List.mem_append, List.mem_singleton]
              rintro ((h | h) | h)
              · exact chunkRetry_no_clear _ _ _ _ _ h
              · simp at h
              · exact ihc h
            · intro off hoff
              obtain ⟨a1, a2, a3⟩ := ihf off hoff
              refine ⟨a1, a2, ?_⟩
              simp only [List.mem_append, List.mem_singleton]
              exact Or.inr a3
            · intro n hn
              simp only [List.mem_append, List.mem_singleton] at hn
              rcases hn with (h | h) | h
              · have := chunkRetry_announce_len _ _ _ _ _ _ h
                subst this
                exact List.length_pos.mpr hc
              · simp at h
              · exact iha n h
        · rw [Bool.not_eq_true] at hr1
          simp only [streamLoop, hbs, if_true, hc, if_false, hr1,
            Bool.false_eq_true]
          refine ⟨?_, ?_, ?_⟩
          · simp only [List.mem_append, List.mem_singleton]
            rintro (h | h)
            · exact chunkRetry_no_clear _ _ _ _ _ h
            · simp at h
          · intro off hoff
            simp only [Option.some.injEq] at hoff
            subst hoff
            refine ⟨rfl, rfl, ?_⟩
            simp
          · intro n hn
            simp only [List.mem_append, List.mem_singleton] at hn
            rcases hn with h | h
            · have := chunkRetry_announce_len _ _ _ _ _ _ h
              subst this
              exact List.length_pos.mpr hc
            · simp at h
    · refine ⟨?_, ?_, ?_⟩ <;> simp [streamLoop, hbs]

/-- Cumulative byte offsets reached after each successive chunk of a
stream that starts at offset `b`, with the same explicit fuel convention
as `streamLoop`. -/
def boundaries (mC : Nat) : Nat → List Nat → Nat → List Nat
  | 0, _, _ => []
  | fuel + 1, l, b =>
    if l = [] then []
    else (b + (l.take mC).length) ::
      boundaries mC fuel (l.drop mC) (b + (l.take mC).length)

/-- When the modem accepts every prompt and acknowledges every chunk, the
streaming loop delivers exactly the remaining bytes, in order, reaches
the file size, never fails, and persists the progress record at every
chunk boundary `b` with `b % (500*1024) < maxChunk`. -/
theorem streamLoop_allOk (out : Nat → Nat → Outcome) (fp : String)
    (now mR rD mC fsz : Nat)
    (hout : ∀ c a, out c a = Outcome.ok) (hmR : 0 < mR) (hmC : 0 < mC) :
    ∀ (fuel : Nat) (remaining : List Nat) (cIdx bs : Nat)
      (prog : Option ProgressRecord),
      remaining.length < fuel → bs + remaining.length = fsz →
      (streamLoop out fp now mR rD mC fsz fuel remaining cIdx bs
        prog).failAt = none ∧
      (streamLoop out fp now mR rD mC fsz fuel remaining cIdx bs
        prog).bytesSent = fsz ∧
      dataBytes (streamLoop out fp now mR rD mC fsz fuel remaining cIdx bs
        prog).events = remaining ∧
      (∀ b, b ∈ boundaries mC fuel remaining bs → b % (500 * 1024) < mC →
        Ev.save fp b ∈
          (streamLoop out fp now mR rD mC fsz fuel remaining cIdx bs
            prog).events) := by
  intro fuel
  induction fuel with
  | zero => intro remaining cIdx bs prog hlen; omega
  | succ m ih =>
    intro remaining cIdx bs prog hlen hinv
    cases remaining with
    | nil =>
      have hbs : ¬bs < fsz := by simp at hinv; omega
      refine ⟨?_, ?_, ?_, ?_⟩ <;> simp [streamLoop, boundaries, hbs,
        dataBytes]
      omega
    | cons x xs =>
      have hbs : bs < fsz := by simp at hinv; omega
      have hc : (x :: xs).take mC ≠ [] := by
        cases mC with
        | zero => omega
        | succ k => simp [List.take]
      have hco := chunkRetry_ok (out cIdx) rD ((x :: xs).take mC) mR 0
        (hout cIdx 0) hmR
      have hlt : ((x :: xs).take mC).length = min mC (x :: xs).length :=
        List.length_take mC (x :: xs)
      have hdl : ((x :: xs).drop mC).length = (x :: xs).length - mC :=
        List.length_drop mC (x :: xs)
      have hlen2 : ((x :: xs).drop mC).length < m := by
        rw [hdl]
        simp only [List.length_cons] at hlen ⊢
        omega
      have hinv2 : bs + ((x :: xs).take mC).length +
          ((x :: xs).drop mC).length = fsz := by
        rw [hlt, hdl]
        omega
      obtain ⟨ih1, ih2, ih3, ih4⟩ := ih ((x :: xs).drop mC) (cIdx + 1)
        (bs + ((x :: xs).take mC).length)
        (if (bs + ((x :: xs).take mC).length) % (500 * 1024) < mC
         then some ⟨fp, bs + ((x :: xs).take mC).length, now⟩ else prog)
        hlen2 hinv2
      by_cases hds : (bs + ((x :: xs).take mC).length) % (500 * 1024) < mC
      · simp only [streamLoop, hbs, if_true, hc, if_false, hco, hds,
          dite_eq_ite] at ih1 ih2 ih3 ih4 ⊢
        refine ⟨ih1, ih2, ?_, ?_⟩
        · rw [dataBytes_append, dataBytes_append]
          simp only [dataBytes, ih3, List.append_nil, List.nil_append]
          exact List.take_append_drop mC (x :: xs)
        · intro b hb hmod
          rw [boundaries, if_neg (List.cons_ne_nil x xs),
            List.mem_cons] at hb
          simp only [List.mem_append, List.mem_singleton]
          rcases hb with hb | hb
          · subst hb
            exact Or.inl (Or.inr rfl)
          · exact Or.inr (ih4 b hb hmod)
      · simp only [streamLoop, hbs, if_true, hc, if_false, hco, hds,
          dite_eq_ite] at ih1 ih2 ih3 ih4 ⊢
        refine ⟨ih1, ih2, ?_, ?_⟩
        · rw [dataBytes_append, dataBytes_append]
          simp only [dataBytes, ih3, List.append_nil, List.nil_append]
          exact List.take_append_drop mC (x :: xs)
        · intro b hb hmod
          rw [boundaries, if_neg (List.cons_ne_nil x xs),
            List.mem_cons] at hb
          simp only [List.mem_append, List.mem_singleton]
          rcases hb with hb | hb
          · subst hb
            exact absurd hmod hds
          · exact Or.inr (ih4 b hb hmod)

/-- The events before the PUT-session open are configuration commands
and the open itself. -/
theorem openEvs_mem (prog0 : Option ProgressRecord) (fp : String)
    (now fsz : Nat) (sv : String) (port : Nat) (u p fn rp : String) :
    ∀ e ∈ openEvs prog0 fp now fsz sv port u p fn rp,
      (∃ c, e = Ev.cfg c) ∨ e = Ev.putOpen := by
  intro e he
  simp only [openEvs, ftpConfigCmds, List.mem_append, List.mem_cons,
    List.not_mem_nil, or_false] at he
  rcases he with (h | h | h | h | h | h | h | h | h) | h | h <;>
    first
      | exact Or.inl ⟨_, h⟩
      | exact Or.inr h

/-- No pre-open event clears the progress file. -/
theorem clear_notin_openEvs (prog0 : Option ProgressRecord) (fp : String)
    (now fsz : Nat) (sv : String) (port : Nat) (u p fn rp : String) :
    Ev.clear ∉ openEvs prog0 fp now fsz sv port u p fn rp := by
  intro h
  rcases openEvs_mem prog0 fp now fsz sv port u p fn rp _ h with ⟨c, hc⟩ | hc
    <;> simp at hc

/-- No pre-open event writes the progress file. -/
theorem save_notin_openEvs (prog0 : Option ProgressRecord) (fp : String)
    (now fsz : Nat) (sv : String) (port : Nat) (u p fn rp : String)
    (f : String) (b : Nat) :
    Ev.save f b ∉ openEvs prog0 fp now fsz sv port u p fn rp := by
  intro h
  rcases openEvs_mem prog0 fp now fsz sv port u p fn rp _ h with ⟨c, hc⟩ | hc
    <;> simp at hc

/-- No pre-open event announces a chunk. -/
theorem announce_notin_openEvs (prog0 : Option ProgressRecord)
    (fp : String) (now fsz : Nat) (sv : String) (port : Nat)
    (u p fn rp : String) (n : Nat) :
    Ev.announce n ∉ openEvs prog0 fp now fsz sv port u p fn rp := by
  intro h
  rcases openEvs_mem prog0 fp now fsz sv port u p fn rp _ h with ⟨c, hc⟩ | hc
    <;> simp at hc

/-- No pre-open event writes raw data bytes. -/
theorem dataOut_notin_openEvs (prog0 : Option ProgressRecord)
    (fp : String) (now fsz : Nat) (sv : String) (port : Nat)
    (u p fn rp : String) (bs : List Nat) :
    Ev.dataOut bs ∉ openEvs prog0 fp now fsz sv port u p fn rp := by
  intro h
  rcases openEvs_mem prog0 fp now fsz sv port u p fn rp _ h with ⟨c, hc⟩ | hc
    <;> simp at hc

/-- The pre-open events carry no data bytes. -/
theorem dataBytes_openEvs (prog0 : Option ProgressRecord) (fp : String)
    (now fsz : Nat) (sv : String) (port : Nat) (u p fn rp : String) :
    dataBytes (openEvs prog0 fp now fsz sv port u p fn rp) = [] := by
  simp [openEvs, ftpConfigCmds, dataBytes]

/-- `streamLoop_general` read through `uploadStream`. -/
theorem uploadStream_general (env : UploadEnv) (fp : String)
    (content : List Nat) (prog0 : Option ProgressRecord) (cs mR rD : Nat) :
    Ev.clear ∉ (uploadStream env fp content prog0 cs mR rD).events ∧
    (∀ off, (uploadStream env fp content prog0 cs mR rD).failAt =
        some off →
      (uploadStream env fp content prog0 cs mR rD).prog =
        some ⟨fp, off, env.now⟩ ∧
      (uploadStream env fp content prog0 cs mR rD).bytesSent = off ∧
      Ev.save fp off ∈ (uploadStream env fp content prog0 cs mR rD).events)
    ∧
    (∀ n, Ev.announce n ∈ (uploadStream env fp content prog0 cs mR
      rD).events → 0 < n) := by
  unfold uploadStream
  exact streamLoop_general env.attempt fp env.now mR rD
    (workingChunk env cs) content.length _ _ 0 _ prog0

/-- The resume offset never exceeds the file size. -/
theorem resumeOffset_le (rec : Option ProgressRecord) (fp : String)
    (now fsz : Nat) : resumeOffset rec fp now fsz ≤ fsz := by
  unfold resumeOffset
  cases hb : useAppendFlag rec fp now fsz
  · simp [hb]
  · simp only [hb, if_true]
    have h2 : 0 < load_progress rec fp now ∧
        load_progress rec fp now < fsz :=
      of_decide_eq_true (by unfold useAppendFlag at hb; exact hb)
    omega

/-- `streamLoop_allOk` read through `uploadStream`. -/
theorem uploadStream_allOk (env : UploadEnv) (fp : String)
    (content : List Nat) (prog0 : Option ProgressRecord) (cs mR rD : Nat)
    (hall : ∀ c a, env.attempt c a = Outcome.ok) (hmR : 0 < mR)
    (hmC : 0 < workingChunk env cs) :
    (uploadStream env fp content prog0 cs mR rD).failAt = none ∧
    (uploadStream env fp content prog0 cs mR rD).bytesSent =
      content.length ∧
    dataBytes (uploadStream env fp content prog0 cs mR rD).events =
      content.drop (resumeOffset prog0 fp env.now content.length) ∧
    (∀ b, b ∈ boundaries (workingChunk env cs)
        ((content.drop (resumeOffset prog0 fp env.now
          content.length)).length + 1)
        (content.drop (resumeOffset prog0 fp env.now content.length))
        (resumeOffset prog0 fp env.now content.length) →
      b % (500 * 1024) < workingChunk env cs →
      Ev.save fp b ∈ (uploadStream env fp content prog0 cs mR
        rD).events) := by
  have hle := resumeOffset_le prog0 fp env.now content.length
  unfold uploadStream
  exact streamLoop_allOk env.attempt fp env.now mR rD
    (workingChunk env cs) content.length hall hmR hmC _ _ 0 _ prog0
    (Nat.lt_succ_self _)
    (by rw [List.length_drop]; omega)

/-- Case analysis of `upload_ftp` after a successful session open. -/
theorem upload_ftp_shape (env : UploadEnv) (fp : String)
    (content : List Nat) (prog0 : Option ProgressRecord) (cs : Nat)
    (sv : String) (port : Nat) (u p fn rp : String) (mR rD : Nat)
    (hopen : env.openOk = true) :
    (∃ off, (uploadStream env fp content prog0 cs mR rD).failAt =
        some off ∧
      upload_ftp env true fp content prog0 cs sv port u p fn rp mR rD =
        ⟨UpResult.chunkFailed off,
         (uploadStream env fp content prog0 cs mR rD).prog,
         openEvs prog0 fp env.now content.length sv port u p fn rp ++
           (uploadStream env fp content prog0 cs mR rD).events⟩) ∨
    ((uploadStream env fp content prog0 cs mR rD).failAt = none ∧
     env.closeOk = true ∧
     upload_ftp env true fp content prog0 cs sv port u p fn rp mR rD =
       ⟨UpResult.success, none,
        openEvs prog0 fp env.now content.length sv port u p fn rp ++
          (uploadStream env fp content prog0 cs mR rD).events ++
          [Ev.closeCmd, Ev.clear]⟩) ∨
    ((uploadStream env fp content prog0 cs mR rD).failAt = none ∧
     env.closeOk = false ∧
     upload_ftp env true fp content prog0 cs sv port u p fn rp mR rD =
       ⟨UpResult.closeUnconfirmed
          (uploadStream env fp content prog0 cs mR rD).bytesSent,
        some ⟨fp, (uploadStream env fp content prog0 cs mR rD).bytesSent,
          env.now⟩,
        openEvs prog0 fp env.now content.length sv port u p fn rp ++
          (uploadStream env fp content prog0 cs mR rD).events ++
          [Ev.closeCmd,
           Ev.save fp (uploadStream env fp content prog0 cs mR
             rD).bytesSent]⟩) := by
  rcases hsf : (uploadStream env fp content prog0 cs mR rD).failAt with
    _ | off
  · cases hck : env.closeOk with
    | true =>
      refine Or.inr (Or.inl ⟨rfl, rfl, ?_⟩)
      simp [upload_ftp, hopen, hsf, hck]
    | false =>
      refine Or.inr (Or.inr ⟨rfl, rfl, ?_⟩)
      simp [upload_ftp, hopen, hsf, hck]
  · refine Or.inl ⟨off, rfl, ?_⟩
    simp [upload_ftp, hopen, hsf]

/-- `upload_ftp` on a missing file. -/
theorem upload_ftp_notfound (env : UploadEnv) (fp : String)
    (content : List Nat) (prog0 : Option ProgressRecord) (cs : Nat)
    (sv : String) (port : Nat) (u p fn rp : String) (mR rD : Nat) :
    upload_ftp env false fp content prog0 cs sv port u p fn rp mR rD =
      ⟨UpResult.fileNotFound, prog0, []⟩ := rfl

/-- `upload_ftp` when the PUT session fails to open. -/
theorem upload_ftp_openFailed (env : UploadEnv) (fp : String)
    (content : List Nat) (prog0 : Option ProgressRecord) (cs : Nat)
    (sv : String) (port : Nat) (u p fn rp : String) (mR rD : Nat)
    (hopen : env.openOk = false) :
    upload_ftp env true fp content prog0 cs sv port u p fn rp mR rD =
      ⟨UpResult.openFailed, prog0,
       openEvs prog0 fp env.now content.length sv port u p fn rp⟩ := by
  simp [upload_ftp, hopen]

/-- Claim C6: during an upload, every non-empty chunk is attempted up to
`max_retries` times (announce, prompt, raw bytes, acknowledgement); a
timed-out stage counts as one failed attempt and, when further attempts
remain, is followed by a retry-delay sleep and a retry of the same chunk;
exhausting all `max_retries` attempts for one chunk persists the progress
record at the last confirmed offset and makes the whole upload fail
reporting that offset.  Formally: the number of attempts for a chunk is
at most `max_retries`; an undelivered chunk used exactly `max_retries`
attempts with exactly `max_retries - 1` backoff sleeps between them; a
successful attempt stops the retry loop at once; a `chunkFailed off`
result of `upload_ftp` leaves the progress record at `off`; and every
announced chunk is non-empty. -/
theorem C6_chunk_retry_policy :
    (∀ (out : Nat → Outcome) (d : Nat) (chunk : List Nat) (fuel i : Nat),
      countAnnounce (chunkRetry out d chunk fuel i).2 ≤ fuel) ∧
    (∀ (out : Nat → Outcome) (d : Nat) (chunk : List Nat) (fuel i : Nat),
      (chunkRetry out d chunk fuel i).1 = false →
      countAnnounce (chunkRetry out d chunk fuel i).2 = fuel ∧
      countSleep (chunkRetry out d chunk fuel i).2 = fuel - 1) ∧
    (∀ (out : Nat → Outcome) (d : Nat) (chunk : List Nat) (fuel i : Nat),
      out i = Outcome.ok → 0 < fuel →
      chunkRetry out d chunk fuel i =
        (true, [Ev.announce chunk.length, Ev.dataOut chunk])) ∧
    (∀ (env : UploadEnv) (fe : Bool) (fp : String) (content : List Nat)
      (prog0 : Option ProgressRecord) (cs : Nat) (sv : String)
      (port : Nat) (u p fn rp : String) (mR rD off : Nat),
      (upload_ftp env fe fp content prog0 cs sv port u p fn rp mR
        rD).result = UpResult.chunkFailed off →
      (upload_ftp env fe fp content prog0 cs sv port u p fn rp mR
        rD).prog = some ⟨fp, off, env.now⟩) ∧
    (∀ (env : UploadEnv) (fe : Bool) (fp : String) (content : List Nat)
      (prog0 : Option ProgressRecord) (cs : Nat) (sv : String)
      (port : Nat) (u p fn rp : String) (mR rD n : Nat),
      Ev.announce n ∈ (upload_ftp env fe fp content prog0 cs sv port u p
        fn rp mR rD).events → 0 < n) := by
  refine ⟨chunkRetry_announce_le, chunkRetry_fail_counts, chunkRetry_ok,
    ?_, ?_⟩
  · intro env fe fp content prog0 cs sv port u p fn rp mR rD off hres
    cases fe with
    | false =>
      rw [upload_ftp_notfound] at hres
      simp at hres
    | true =>
      by_cases hopen : env.openOk = true
      · rcases upload_ftp_shape env fp content prog0 cs sv port u p fn rp
          mR rD hopen with ⟨off2, hsf, hu⟩ | ⟨hsf, hck, hu⟩ |
          ⟨hsf, hck, hu⟩
        · rw [hu] at hres ⊢
          simp only [UpResult.chunkFailed.injEq] at hres
          subst hres
          exact ((uploadStream_general env fp content prog0 cs mR
            rD).2.1 off2 hsf).1
        · rw [hu] at hres
          simp at hres
        · rw [hu] at hres
          simp at hres
      · rw [Bool.not_eq_true] at hopen
        rw [upload_ftp_openFailed env fp content prog0 cs sv port u p fn
          rp mR rD hopen] at hres
        simp at hres
  · intro env fe fp content prog0 cs sv port u p fn rp mR rD n hmem
    cases fe with
    | false =>
      rw [upload_ftp_notfound] at hmem
      simp at hmem
    | true =>
      by_cases hopen : env.openOk = true
      · rcases upload_ftp_shape env fp content prog0 cs sv port u p fn rp
          mR rD hopen with ⟨off2, hsf, hu⟩ | ⟨hsf, hck, hu⟩ |
          ⟨hsf, hck, hu⟩ <;> rw [hu] at hmem <;>
          simp only [List.mem_append, List.mem_cons,
            List.mem_singleton] at hmem
        · rcases hmem with h | h
          · exact absurd h (announce_notin_openEvs _ _ _ _ _ _ _ _ _ _ n)
          · exact (uploadStream_general env fp content prog0 cs mR
              rD).2.2 n h
        · rcases hmem with (h | h) | h | h | h
          · exact absurd h (announce_notin_openEvs _ _ _ _ _ _ _ _ _ _ n)
          · exact (uploadStream_general env fp content prog0 cs mR
              rD).2.2 n h
          · simp at h
          · simp at h
          · simp at h
        · rcases hmem with (h | h) | h | h | h
          · exact absurd h (announce_notin_openEvs _ _ _ _ _ _ _ _ _ _ n)
          · exact (uploadStream_general env fp content prog0 cs mR
              rD).2.2 n h
          · simp at h
          · simp at h
          · simp at h
      · rw [Bool.not_eq_true] at hopen
        rw [upload_ftp_openFailed env fp content prog0 cs sv port u p fn
          rp mR rD hopen] at hmem
        exact absurd hmem (announce_notin_openEvs _ _ _ _ _ _ _ _ _ _ n)

/-- Witness for claim C6: a chunk whose prompt times out on all three
attempts (max_retries = 3) is announced exactly three times with exactly
two backoff sleeps, and the upload fails at offset 0 with the progress
record persisted there. -/
theorem C6_chunk_retry_policy_witness :
    (countAnnounce (chunkRetry (fun _ => Outcome.promptFail) 5 [1] 3
        0).2 = 3 ∧
      countSleep (chunkRetry (fun _ => Outcome.promptFail) 5 [1] 3 0).2 =
        3 - 1) ∧
    (upload_ftp ⟨true, some 2, fun _ _ => Outcome.promptFail, true, 9⟩
      true "f" [1, 2] none 512000 "srv" 21 "u" "p" "f" "/" 3 5).prog =
      some ⟨"f", 0, 9⟩ :=
  ⟨C6_chunk_retry_policy.2.1 (fun _ => Outcome.promptFail) 5 [1] 3 0
      (by decide),
    C6_chunk_retry_policy.2.2.2.1
      ⟨true, some 2, fun _ _ => Outcome.promptFail, true, 9⟩ true "f"
      [1, 2] none 512000 "srv" 21 "u" "p" "f" "/" 3 5 0 (by decide)⟩

/-- Claim C7: across every upload, the progress record is persisted
after acknowledged chunks at the coarse boundary (whenever the new offset
`b` satisfies `b % (500*1024) < maxChunk`, which happens at least every
~500 KiB since chunks are at most `maxChunk` bytes) and whenever the
transfer fails (chunk-retry exhaustion or unconfirmed session close, at
the reported offset); the record is deleted exactly when the final
session-closed confirmation is received; hence after an upload that
returns success, no progress record remains. -/
theorem C7_progress_record_lifecycle :
    (∀ (env : UploadEnv) (fe : Bool) (fp : String) (content : List Nat)
      (prog0 : Option ProgressRecord) (cs : Nat) (sv : String)
      (port : Nat) (u p fn rp : String) (mR rD : Nat),
      ((upload_ftp env fe fp content prog0 cs sv port u p fn rp mR
          rD).result = UpResult.success →
        (upload_ftp env fe fp content prog0 cs sv port u p fn rp mR
          rD).prog = none) ∧
      (∀ off,
        ((upload_ftp env fe fp content prog0 cs sv port u p fn rp mR
            rD).result = UpResult.chunkFailed off ∨
         (upload_ftp env fe fp content prog0 cs sv port u p fn rp mR
            rD).result = UpResult.closeUnconfirmed off) →
        (upload_ftp env fe fp content prog0 cs sv port u p fn rp mR
          rD).prog = some ⟨fp, off, env.now⟩ ∧
        Ev.save fp off ∈ (upload_ftp env fe fp content prog0 cs sv port
          u p fn rp mR rD).events) ∧
      (Ev.clear ∈ (upload_ftp env fe fp content prog0 cs sv port u p fn
          rp mR rD).events ↔
        (upload_ftp env fe fp content prog0 cs sv port u p fn rp mR
          rD).result = UpResult.success)) ∧
    (∀ (env : UploadEnv) (fp : String) (content : List Nat)
      (prog0 : Option ProgressRecord) (cs : Nat) (sv : String)
      (port : Nat) (u p fn rp : String) (mR rD : Nat),
      (∀ c a, env.attempt c a = Outcome.ok) → env.openOk = true →
      0 < workingChunk env cs → 0 < mR →
      ∀ b, b ∈ boundaries (workingChunk env cs)
          ((content.drop (resumeOffset prog0 fp env.now
            content.length)).length + 1)
          (content.drop (resumeOffset prog0 fp env.now content.length))
          (resumeOffset prog0 fp env.now content.length) →
        b % (500 * 1024) < workingChunk env cs →
        Ev.save fp b ∈ (upload_ftp env true fp content prog0 cs sv port
          u p fn rp mR rD).events) := by
  constructor
  · intro env fe fp content prog0 cs sv port u p fn rp mR rD
    cases fe with
    | false =>
      rw [upload_ftp_notfound]
      refine ⟨?_, ?_, ?_⟩
      · intro h; simp at h
      · intro off hoff; rcases hoff with h | h <;> simp at h
      · constructor
        · intro h; simp at h
        · intro h; simp at h
    | true =>
      by_cases hopen : env.openOk = true
      · rcases upload_ftp_shape env fp content prog0 cs sv port u p fn rp
          mR rD hopen with ⟨off2, hsf, hu⟩ | ⟨hsf, hck, hu⟩ |
          ⟨hsf, hck, hu⟩ <;> rw [hu]
        · refine ⟨?_, ?_, ?_⟩
          · intro h; simp at h
          · intro off hoff
            rcases hoff with h | h
            · simp only [UpResult.chunkFailed.injEq] at h
              subst h
              obtain ⟨g1, g2, g3⟩ := (uploadStream_general env fp content
                prog0 cs mR rD).2.1 off2 hsf
              refine ⟨g1, ?_⟩
              simp only [List.mem_append]
              exact Or.inr g3
            · simp at h
          · constructor
            · intro h
              simp only [List.mem_append] at h
              rcases h with h | h
              · exact absurd h (clear_notin_openEvs _ _ _ _ _ _ _ _ _ _)
              · exact absurd h (uploadStream_general env fp content prog0
                  cs mR rD).1
            · intro h; simp at h
        · refine ⟨?_, ?_, ?_⟩
          · intro _; rfl
          · intro off hoff; rcases hoff with h | h <;> simp at h
          · constructor
            · intro _; rfl
            · intro _; simp
        · refine ⟨?_, ?_, ?_⟩
          · intro h; simp at h
          · intro off hoff
            rcases hoff with h | h
            · simp at h
            · simp only [UpResult.closeUnconfirmed.injEq] at h
              subst h
              refine ⟨rfl, ?_⟩
              simp
          · constructor
            · intro h
              simp only [List.mem_append, List.mem_cons,
                List.mem_singleton] at h
              rcases h with (h | h) | h | h | h
              · exact absurd h (clear_notin_openEvs _ _ _ _ _ _ _ _ _ _)
              · exact absurd h (uploadStream_general env fp content prog0
                  cs mR rD).1
              · simp at h
              · simp at h
              · simp at h
            · intro h; simp at h
      · rw [Bool.not_eq_true] at hopen
        rw [upload_ftp_openFailed env fp content prog0 cs sv port u p fn
          rp mR rD hopen]
        refine ⟨?_, ?_, ?_⟩
        · intro h; simp at h
        · intro off hoff; rcases hoff with h | h <;> simp at h
        · constructor
          · intro h
            exact absurd h (clear_notin_openEvs _ _ _ _ _ _ _ _ _ _)
          · intro h; simp at h
  · intro env fp content prog0 cs sv port u p fn rp mR rD hall hopen hmc
      hmr b hb hmod
    obtain ⟨hsf, _, _, hsave⟩ := uploadStream_allOk env fp content prog0
      cs mR rD hall hmr hmc
    rcases upload_ftp_shape env fp content prog0 cs sv port u p fn rp mR
      rD hopen with ⟨off2, hsf2, hu⟩ | ⟨_, hck, hu⟩ | ⟨_, hck, hu⟩
    · rw [hsf] at hsf2; simp at hsf2
    · rw [hu]
      simp only [List.mem_append]
      exact Or.inl (Or.inr (hsave b hb hmod))
    · rw [hu]
      simp only [List.mem_append]
      exact Or.inl (Or.inr (hsave b hb hmod))

/-- Witness for claim C7: a two-chunk upload (chunk size 2, file of 3
bytes) whose first chunk needs a retry and then succeeds
(max_retries = 3) reports success and leaves no progress record, and its
trace contains the progress-file deletion; the periodic-save clause
instantiated at the first boundary of a fresh upload. -/
theorem C7_progress_record_lifecycle_witness :
    ((upload_ftp ⟨true, some 2, fun _ a => if a = 0 then
          Outcome.promptFail else Outcome.ok, true, 9⟩ true "f" [1, 2, 3]
        none 512000 "srv" 21 "u" "p" "f" "/" 3 5).result =
          UpResult.success →
      (upload_ftp ⟨true, some 2, fun _ a => if a = 0 then
          Outcome.promptFail else Outcome.ok, true, 9⟩ true "f" [1, 2, 3]
        none 512000 "srv" 21 "u" "p" "f" "/" 3 5).prog = none) ∧
    Ev.save "f" 3 ∈ (upload_ftp ⟨true, none, fun _ _ => Outcome.ok,
        true, 9⟩ true "f" [1, 2, 3] none 512000 "srv" 21 "u" "p" "f" "/"
        3 5).events :=
  ⟨(C7_progress_record_lifecycle.1 ⟨true, some 2, fun _ a => if a = 0
      then Outcome.promptFail else Outcome.ok, true, 9⟩ true "f"
      [1, 2, 3] none 512000 "srv" 21 "u" "p" "f" "/" 3 5).1,
    C7_progress_record_lifecycle.2 ⟨true, none, fun _ _ => Outcome.ok,
      true, 9⟩ "f" [1, 2, 3] none 512000 "srv" 21 "u" "p" "f" "/" 3 5
      (fun _ _ => rfl) rfl (by decide) (by decide) 3 (by decide)
      (by decide)⟩

/-- A positive loaded progress value comes from a record that names the
very file being uploaded and is less than one hour old. -/
theorem load_progress_pos (rec : Option ProgressRecord) (fp : String)
    (now : Nat) (h : 0 < load_progress rec fp now) :
    ∃ B ts, rec = some ⟨fp, B, ts⟩ ∧ now - ts < 3600 ∧
      load_progress rec fp now = B := by
  match rec with
  | none => simp [load_progress] at h
  | some pr =>
    obtain ⟨pf, pb, pt⟩ := pr
    simp only [load_progress] at h ⊢
    by_cases hcond : pf = fp ∧ now - pt < 3600
    · refine ⟨pb, pt, ?_, hcond.2, ?_⟩
      · rw [hcond.1]
      · rw [if_pos hcond]
    · rw [if_neg hcond] at h
      simp at h

/-- Claim C3 (corrected): the claim states that any persisted record for
the same file less than one hour old, with `bytes_sent = B`, makes the
engine resume at offset `B` in append mode.  On the code the record must
additionally satisfy `0 < B < filesize` (modem_handler.py line 155:
`resume_from > 0 and resume_from < filesize`): a fresh matching record
with `bytes_sent = 0` selects create/overwrite (STOR) mode, not append. -/
theorem C3_counterexample :
    Ev.cfg "AT+FTPPUTOPT=\"STOR\"" ∈
      (upload_ftp ⟨true, some 2, fun _ _ => Outcome.ok, true, 10⟩ true
        "f" [7, 8, 9] (some ⟨"f", 0, 0⟩) 512000 "srv" 21 "u" "p" "f" "/"
        3 5).events ∧
    Ev.cfg "AT+FTPPUTOPT=\"APPE\"" ∉
      (upload_ftp ⟨true, some 2, fun _ _ => Outcome.ok, true, 10⟩ true
        "f" [7, 8, 9] (some ⟨"f", 0, 0⟩) 512000 "srv" 21 "u" "p" "f" "/"
        3 5).events := by
  constructor
  · decide
  · decide

/-- Claim C3 (amended): when the modem accepts the session and every
chunk, a persisted record for the same file, less than one hour old and
with `0 < bytes_sent < filesize`, makes the engine select append (APPE)
mode and upload exactly the bytes from offset `bytes_sent` onward;
otherwise (no record, a different file, a record at least one hour old,
`bytes_sent = 0`, or `bytes_sent ≥ filesize`) it selects create/overwrite
(STOR) mode and uploads the whole file from offset 0. -/
theorem C3_resume_semantics (env : UploadEnv) (fp : String)
    (content : List Nat) (prog0 : Option ProgressRecord) (cs : Nat)
    (sv : String) (port : Nat) (u p fn rp : String) (mR rD : Nat)
    (hall : ∀ c a, env.attempt c a = Outcome.ok)
    (hopen : env.openOk = true) (hmC : 0 < workingChunk env cs)
    (hmR : 0 < mR) :
    (∀ B ts, prog0 = some ⟨fp, B, ts⟩ → env.now - ts < 3600 → 0 < B →
      B < content.length →
      Ev.cfg "AT+FTPPUTOPT=\"APPE\"" ∈ (upload_ftp env true fp content
        prog0 cs sv port u p fn rp mR rD).events ∧
      dataBytes (upload_ftp env true fp content prog0 cs sv port u p fn
        rp mR rD).events = content.drop B) ∧
    ((¬∃ B ts, prog0 = some ⟨fp, B, ts⟩ ∧ env.now - ts < 3600 ∧ 0 < B ∧
        B < content.length) →
      Ev.cfg "AT+FTPPUTOPT=\"STOR\"" ∈ (upload_ftp env true fp content
        prog0 cs sv port u p fn rp mR rD).events ∧
      dataBytes (upload_ftp env true fp content prog0 cs sv port u p fn
        rp mR rD).events = content) := by
  obtain ⟨hsf, hbytes, hdata, _⟩ := uploadStream_allOk env fp content
    prog0 cs mR rD hall hmR hmC
  constructor
  · intro B ts hrec hfresh hB hBlen
    have hlp : load_progress prog0 fp env.now = B := by
      rw [hrec]
      simp [load_progress, hfresh]
    have hflag : useAppendFlag prog0 fp env.now content.length = true := by
      unfold useAppendFlag
      rw [hlp]
      exact decide_eq_true ⟨hB, hBlen⟩
    have hres : resumeOffset prog0 fp env.now content.length = B := by
      simp [resumeOffset, hflag, hlp]
    rcases upload_ftp_shape env fp content prog0 cs sv port u p fn rp mR
      rD hopen with ⟨off2, hsf2, hu⟩ | ⟨_, hck, hu⟩ | ⟨_, hck, hu⟩
    · rw [hsf] at hsf2; simp at hsf2
    · rw [hu]
      constructor
      · simp only [List.mem_append]
        refine Or.inl (Or.inl ?_)
        simp [openEvs, hflag]
      · rw [dataBytes_append, dataBytes_append, dataBytes_openEvs,
          hdata, hres]
        simp [dataBytes]
    · rw [hu]
      constructor
      · simp only [List.mem_append]
        refine Or.inl (Or.inl ?_)
        simp [openEvs, hflag]
      · rw [dataBytes_append, dataBytes_append, dataBytes_openEvs,
          hdata, hres]
        simp [dataBytes]
  · intro hnot
    have hflag : useAppendFlag prog0 fp env.now content.length = false := by
      unfold useAppendFlag
      apply decide_eq_false
      rintro ⟨h1, h2⟩
      obtain ⟨B, ts, hrec, hfresh, hlp⟩ :=
        load_progress_pos prog0 fp env.now h1
      exact hnot ⟨B, ts, hrec, hfresh, by omega,
        by rw [← hlp]; exact h2⟩
    have hres : resumeOffset prog0 fp env.now content.length = 0 := by
      simp [resumeOffset, hflag]
    rcases upload_ftp_shape env fp content prog0 cs sv port u p fn rp mR
      rD hopen with ⟨off2, hsf2, hu⟩ | ⟨_, hck, hu⟩ | ⟨_, hck, hu⟩
    · rw [hsf] at hsf2; simp at hsf2
    · rw [hu]
      constructor
      · simp only [List.mem_append]
        refine Or.inl (Or.inl ?_)
        simp [openEvs, hflag]
      · rw [dataBytes_append, dataBytes_append, dataBytes_openEvs,
          hdata, hres]
        simp [dataBytes]
    · rw [hu]
      constructor
      · simp only [List.mem_append]
        refine Or.inl (Or.inl ?_)
        simp [openEvs, hflag]
      · rw [dataBytes_append, dataBytes_append, dataBytes_openEvs,
          hdata, hres]
        simp [dataBytes]

/-- Witness for the amended claim C3: a fresh record at offset 2 for a
3-byte file resumes in append mode and uploads exactly the final byte. -/
theorem C3_resume_semantics_witness :
    Ev.cfg "AT+FTPPUTOPT=\"APPE\"" ∈
      (upload_ftp ⟨true, some 2, fun _ _ => Outcome.ok, true, 10⟩ true
        "f" [7, 8, 9] (some ⟨"f", 2, 5⟩) 512000 "srv" 21 "u" "p" "f" "/"
        3 5).events ∧
    dataBytes (upload_ftp ⟨true, some 2, fun _ _ => Outcome.ok, true,
        10⟩ true "f" [7, 8, 9] (some ⟨"f", 2, 5⟩) 512000 "srv" 21 "u"
        "p" "f" "/" 3 5).events = List.drop 2 [7, 8, 9] :=
  (C3_resume_semantics ⟨true, some 2, fun _ _ => Outcome.ok, true, 10⟩
    "f" [7, 8, 9] (some ⟨"f", 2, 5⟩) 512000 "srv" 21 "u" "p" "f" "/" 3 5
    (fun _ _ => rfl) rfl (by decide) (by decide)).1 2 5 rfl (by decide)
    (by decide) (by decide)

/-- Claim C9 (corrected): the claim states that a zero-byte file returns
success immediately, without opening an FTP PUT session.  The code has no
zero-byte special case: it issues the configuration commands and
`AT+FTPPUT=1` regardless, and when the session open is not confirmed the
upload of an empty file returns a session-open failure, not success. -/
theorem C9_counterexample :
    (upload_ftp ⟨false, some 2, fun _ _ => Outcome.ok, false, 0⟩ true
      "f" [] none 512000 "srv" 21 "u" "p" "f" "/" 3 5).result =
      UpResult.openFailed ∧
    Ev.putOpen ∈ (upload_ftp ⟨false, some 2, fun _ _ => Outcome.ok,
      false, 0⟩ true "f" [] none 512000 "srv" 21 "u" "p" "f" "/" 3
      5).events ∧
    UpResult.openFailed ≠ UpResult.success := by
  refine ⟨?_, ?_, ?_⟩ <;> decide

/-- Claim C9 (amended): for a zero-byte source file the engine still
opens an FTP PUT session and immediately signals end-of-data, but it
announces no data chunk and writes no data bytes; the upload returns
success exactly when both the session open and the final close
confirmation are received. -/
theorem C9_zero_byte (env : UploadEnv) (fp : String)
    (prog0 : Option ProgressRecord) (cs : Nat) (sv : String) (port : Nat)
    (u p fn rp : String) (mR rD : Nat) :
    (∀ n, Ev.announce n ∉ (upload_ftp env true fp [] prog0 cs sv port u
      p fn rp mR rD).events) ∧
    (∀ bs, Ev.dataOut bs ∉ (upload_ftp env true fp [] prog0 cs sv port u
      p fn rp mR rD).events) ∧
    ((upload_ftp env true fp [] prog0 cs sv port u p fn rp mR
        rD).result = UpResult.success ↔
      env.openOk = true ∧ env.closeOk = true) := by
  have hflag : useAppendFlag prog0 fp env.now 0 = false := by
    unfold useAppendFlag
    apply decide_eq_false
    rintro ⟨h1, h2⟩
    simp at h2
  have hres0 : resumeOffset prog0 fp env.now ([] : List Nat).length =
      0 := by
    simp [resumeOffset, hflag]
  have hs : uploadStream env fp [] prog0 cs mR rD = ⟨none, 0, prog0,
      []⟩ := by
    unfold uploadStream
    rw [hres0]
    rfl
  by_cases hopen : env.openOk = true
  · rcases upload_ftp_shape env fp [] prog0 cs sv port u p fn rp mR rD
      hopen with ⟨off2, hsf2, hu⟩ | ⟨_, hck, hu⟩ | ⟨_, hck, hu⟩
    · rw [hs] at hsf2; simp at hsf2
    · rw [hu, hs]
      refine ⟨?_, ?_, ?_⟩
      · intro n hmem
        simp only [List.mem_append, List.mem_cons, List.mem_singleton,
          List.not_mem_nil] at hmem
        rcases hmem with (h | h) | h | h | h
        · exact absurd h (announce_notin_openEvs _ _ _ _ _ _ _ _ _ _ n)
        · exact h
        · simp at h
        · simp at h
        · simp at h
      · intro bs hmem
        simp only [List.mem_append, List.mem_cons, List.mem_singleton,
          List.not_mem_nil] at hmem
        rcases hmem with (h | h) | h | h | h
        · exact absurd h (dataOut_notin_openEvs _ _ _ _ _ _ _ _ _ _ bs)
        · exact h
        · simp at h
        · simp at h
        · simp at h
      · simp [hopen, hck]
    · rw [hu, hs]
      refine ⟨?_, ?_, ?_⟩
      · intro n hmem
        simp only [List.mem_append, List.mem_cons, List.mem_singleton,
          List.not_mem_nil] at hmem
        rcases hmem with (h | h) | h | h | h
        · exact absurd h (announce_notin_openEvs _ _ _ _ _ _ _ _ _ _ n)
        · exact h
        · simp at h
        · simp at h
        · simp at h
      · intro bs hmem
        simp only [List.mem_append, List.mem_cons, List.mem_singleton,
          List.not_mem_nil] at hmem
        rcases hmem with (h | h) | h | h | h
        · exact absurd h (dataOut_notin_openEvs _ _ _ _ _ _ _ _ _ _ bs)
        · exact h
        · simp at h
        · simp at h
        · simp at h
      · simp [hopen, hck]
  · rw [Bool.not_eq_true] at hopen
    rw [upload_ftp_openFailed env fp [] prog0 cs sv port u p fn rp mR rD
      hopen]
    refine ⟨?_, ?_, ?_⟩
    · intro n hmem
      exact absurd hmem (announce_notin_openEvs _ _ _ _ _ _ _ _ _ _ n)
    · intro bs hmem
      exact absurd hmem (dataOut_notin_openEvs _ _ _ _ _ _ _ _ _ _ bs)
    · simp [hopen]

/-- Witness for the amended claim C9: a zero-byte upload with a
confirmed open and close returns success and never announces a chunk. -/
theorem C9_zero_byte_witness :
    (∀ n, Ev.announce n ∉ (upload_ftp ⟨true, some 2,
      fun _ _ => Outcome.ok, true, 0⟩ true "f" [] none 512000 "srv" 21
      "u" "p" "f" "/" 3 5).events) ∧
    ((upload_ftp ⟨true, some 2, fun _ _ => Outcome.ok, true, 0⟩ true "f"
        [] none 512000 "srv" 21 "u" "p" "f" "/" 3 5).result =
        UpResult.success ↔
      (⟨true, some 2, fun _ _ => Outcome.ok, true, 0⟩ :
        UploadEnv).openOk = true ∧
      (⟨true, some 2, fun _ _ => Outcome.ok, true, 0⟩ :
        UploadEnv).closeOk = true) :=
  ⟨(C9_zero_byte ⟨true, some 2, fun _ _ => Outcome.ok, true, 0⟩ "f" none
      512000 "srv" 21 "u" "p" "f" "/" 3 5).1,
    (C9_zero_byte ⟨true, some 2, fun _ _ => Outcome.ok, true, 0⟩ "f"
      none 512000 "srv" 21 "u" "p" "f" "/" 3 5).2.2⟩

/-!
Host-Activity Monitor: the body of the monitor loop in `main`
(main.py, lines 407-457).  One poll reads the gadget-controller state
(`udc`), the cumulative write-sector counter (`sectors`, an integer
because the reader returns -1 on error) and the clock (`now`); when a
harvest fires inside the configured branch the counter is re-read
afterwards (`sectorsAfterHarvest`).
-/

/-- Session-tracking state of the monitor loop. -/
structure MonState where
  baseline : Int
  lastSeen : Int
  lastWrite : Option Int
  hostConn : Bool
deriving DecidableEq, Repr

/-- One poll's sensor readings. -/
structure Poll where
  udc : String
  sectors : Int
  now : Int
  sectorsAfterHarvest : Int
deriving DecidableEq, Repr

/-- Connected-branch bookkeeping (main.py, lines 413-427): on a fresh
connection capture the baseline, then record any counter increase as a
write at the current time. -/
def connUpdate (s : MonState) (p : Poll) : MonState :=
  let s1 := if !s.hostConn
    then { s with hostConn := true, baseline := p.sectors, lastSeen := p.sectors }
    else s
  if p.sectors > s1.lastSeen then
    { s1 with lastSeen := p.sectors, lastWrite := some p.now }
  else s1

/-- One iteration of the monitor loop (main.py, lines 409-457): returns
the next state and whether a harvest cycle was started at this poll. -/
def monitor_step (w : Int) (s : MonState) (p : Poll) :
    MonState × Bool :=
  if p.udc = "configured" then
    let s1 := connUpdate s p
    match s1.lastWrite with
    | some t =>
      if p.now - t ≥ w then
        (⟨p.sectorsAfterHarvest, p.sectorsAfterHarvest, none, false⟩,
          true)
      else (s1, false)
    | none => (s1, false)
  else
    if s.hostConn then
      ({ s with lastWrite := none, hostConn := false },
        s.lastWrite.isSome)
    else ({ s with hostConn := false }, false)

/-- Claim C5: in the monitor loop, with the host connected, a harvest
fires at a poll exactly when the session has recorded at least one write
(after this poll's own counter check) and the quiet window has elapsed
since the last write — so it fires at the first such poll and not
earlier; when the controller state leaves "configured" with at least one
write recorded, a harvest fires immediately at that disconnect poll; and
a disconnect with zero writes this session fires no harvest and resets
the session state. -/
theorem C5_harvest_trigger (w : Int) (s : MonState) (p : Poll) :
    (p.udc = "configured" →
      ((monitor_step w s p).2 = true ↔
        ∃ t, (connUpdate s p).lastWrite = some t ∧ p.now - t ≥ w)) ∧
    (p.udc ≠ "configured" → s.hostConn = true →
      ((monitor_step w s p).2 = true ↔ s.lastWrite.isSome = true)) ∧
    (p.udc ≠ "configured" → s.lastWrite = none →
      (monitor_step w s p).2 = false) ∧
    (p.udc ≠ "configured" → s.hostConn = true →
      (monitor_step w s p).1.lastWrite = none ∧
      (monitor_step w s p).1.hostConn = false) := by
  refine ⟨?_, ?_, ?_, ?_⟩
  · intro hudc
    unfold monitor_step
    rw [if_pos hudc]
    cases hlw : (connUpdate s p).lastWrite with
    | none =>
      simp [hlw]
    | some t =>
      by_cases hq : p.now - t ≥ w
      · simp only [hlw, hq, if_pos]
        constructor
        · intro _; exact ⟨t, rfl, hq⟩
        · intro _; trivial
      · simp only [hlw, hq, if_neg, if_false]
        constructor
        · intro h; simp at h
        · rintro ⟨t2, ht2, hq2⟩
          cases ht2
          exact absurd hq2 hq
  · intro hudc hconn
    unfold monitor_step
    rw [if_neg hudc, if_pos hconn]
  · intro hudc hlw
    unfold monitor_step
    rw [if_neg hudc]
    by_cases hconn : s.hostConn = true
    · rw [if_pos hconn]
      simp [hlw]
    · rw [if_neg hconn]
  · intro hudc hconn
    unfold monitor_step
    rw [if_neg hudc, if_pos hconn]
    exact ⟨rfl, rfl⟩

/-- Witness for claim C5: with quiet window 30, a session whose last
write was at time 0 harvests at the poll at time 30; and a disconnect
poll with a pending write harvests immediately. -/
theorem C5_harvest_trigger_witness :
    ((monitor_step 30 ⟨0, 0, some 0, true⟩
        ⟨"configured", 0, 30, 0⟩).2 = true ↔
      ∃ t, (connUpdate ⟨0, 0, some 0, true⟩
        ⟨"configured", 0, 30, 0⟩).lastWrite = some t ∧
          (30 : Int) - t ≥ 30) ∧
    ((monitor_step 30 ⟨0, 0, some 5, true⟩
        ⟨"suspended", 0, 10, 0⟩).2 = true ↔
      (some (5 : Int)).isSome = true) :=
  ⟨(C5_harvest_trigger 30 ⟨0, 0, some 0, true⟩
      ⟨"configured", 0, 30, 0⟩).1 rfl,
    (C5_harvest_trigger 30 ⟨0, 0, some 5, true⟩
      ⟨"suspended", 0, 10, 0⟩).2.1 (by decide) rfl⟩

/-!
Bearer/Registration Controller: `SIM7000GHandler.setup_network`
(modem_handler.py, lines 52-87).  The modem's behaviour is a `NetEnv`:
whether the liveness probe answers OK, the registration reply per poll,
and the bearer-query reply; commands and sleeps become `NetEv` events.
-/

/-- Command/sleep events of `setup_network`. -/
inductive NetEv where
  | atCmd
  | csq
  | cfun
  | creg
  | sleep2
  | contype
  | apnCmd
  | sapbrOpen
  | sapbrQuery
deriving DecidableEq, Repr

/-- Modem-side environment of one `setup_network` call. -/
structure NetEnv where
  atOk : Bool
  cregResp : Nat → String
  sapbrResp : String

/-- Registration test (modem_handler.py, line 70): the reply contains
`,1` or `,5`. -/
def registered (resp : String) : Bool :=
  pyIn ",1" resp || pyIn ",5" resp

/-- Registration polling loop (modem_handler.py, lines 68-74): up to
`fuel` polls of `AT+CREG?`; a registered reply breaks out, any other
reply is followed by a 2-second sleep and the next poll. -/
def regLoop (resp : Nat → String) : Nat → Nat → List NetEv
  | 0, _ => []
  | fuel + 1, i =>
    if registered (resp i) then [NetEv.creg]
    else NetEv.creg :: NetEv.sleep2 :: regLoop resp fuel (i + 1)

/-- Result of one `setup_network` call. -/
structure NetOut where
  ok : Bool
  msg : String
  events : List NetEv
deriving DecidableEq, Repr

/-- `SIM7000GHandler.setup_network` (modem_handler.py, lines 52-87). -/
def setup_network (env : NetEnv) : NetOut :=
  if !env.atOk then ⟨false, "Modem not responding", [NetEv.atCmd]⟩
  else
    let evs := [NetEv.atCmd, NetEv.csq, NetEv.cfun] ++
      regLoop env.cregResp 10 0 ++
      [NetEv.contype, NetEv.apnCmd, NetEv.sapbrOpen, NetEv.sapbrQuery]
    if pyIn "0.0.0.0" env.sapbrResp then
      ⟨false, "Failed to get IP address", evs⟩
    else ⟨true, env.sapbrResp, evs⟩

/-- The registration loop polls at most `fuel` times. -/
theorem regLoop_count_le (resp : Nat → String) :
    ∀ (fuel i : Nat), (regLoop resp fuel i).count NetEv.creg ≤ fuel := by
  intro fuel
  induction fuel with
  | zero => intro i; simp [regLoop]
  | succ n ih =>
    intro i
    unfold regLoop
    by_cases hr : registered (resp i)
    · simp [hr, List.count_cons]
    · simp only [hr, Bool.false_eq_true, if_false]
      rw [List.count_cons_self, List.count_cons_of_ne (by decide)]
      have := ih (i + 1)
      omega

/-- A never-registered modem is polled exactly `fuel` times with a
2-second sleep after every poll. -/
theorem regLoop_never (resp : Nat → String)
    (h : ∀ j, registered (resp j) = false) :
    ∀ (fuel i : Nat),
      (regLoop resp fuel i).count NetEv.creg = fuel ∧
      (regLoop resp fuel i).count NetEv.sleep2 = fuel := by
  intro fuel
  induction fuel with
  | zero => intro i; simp [regLoop]
  | succ n ih =>
    intro i
    unfold regLoop
    rw [h i]
    obtain ⟨h1, h2⟩ := ih (i + 1)
    simp only [Bool.false_eq_true, if_false]
    constructor
    · rw [List.count_cons_self, List.count_cons_of_ne (by decide), h1]
    · rw [List.count_cons_of_ne (by decide), List.count_cons_self, h2]

/-- Claim C8: `setup_network` fails with the modem-unresponsive message
exactly when the liveness probe gets no OK; it polls registration at
most 10 times, sleeping 2 s after each unconfirmed poll, and proceeds to
open the bearer even when registration is never confirmed (a
never-registered modem is polled exactly 10 times and the bearer-open
command is still issued); and, once the probe answers, it returns the
no-IP failure exactly when the bearer-query reply contains `0.0.0.0`,
and success with that reply otherwise. -/
theorem C8_setup_network (env : NetEnv) :
    (env.atOk = false →
      setup_network env =
        ⟨false, "Modem not responding", [NetEv.atCmd]⟩) ∧
    ((setup_network env).events.count NetEv.creg ≤ 10) ∧
    (env.atOk = true → (∀ j, registered (env.cregResp j) = false) →
      (setup_network env).events.count NetEv.creg = 10 ∧
      (setup_network env).events.count NetEv.sleep2 = 10 ∧
      NetEv.sapbrOpen ∈ (setup_network env).events) ∧
    (env.atOk = true →
      (pyIn "0.0.0.0" env.sapbrResp = true →
        (setup_network env).ok = false ∧
        (setup_network env).msg = "Failed to get IP address") ∧
      (pyIn "0.0.0.0" env.sapbrResp = false →
        (setup_network env).ok = true ∧
        (setup_network env).msg = env.sapbrResp)) := by
  refine ⟨?_, ?_, ?_, ?_⟩
  · intro h
    simp [setup_network, h]
  · by_cases h : env.atOk = true
    · have hc := regLoop_count_le env.cregResp 10 0
      by_cases hip : pyIn "0.0.0.0" env.sapbrResp = true <;>
        simp [setup_network, h, hip, List.count_append,
          List.count_cons] <;> omega
    · rw [Bool.not_eq_true] at h
      simp [setup_network, h, List.count_cons]
  · intro h hnever
    obtain ⟨h1, h2⟩ := regLoop_never env.cregResp hnever 10 0
    by_cases hip : pyIn "0.0.0.0" env.sapbrResp = true <;>
      simp [setup_network, h, hip, List.count_append, List.count_cons,
        h1, h2]
  · intro h
    constructor
    · intro hip
      simp [setup_network, h, hip]
    · intro hip
      simp [setup_network, h, hip]

/-- Witness for claim C8 on a modem that answers the probe, never
confirms registration, and reports a real IP address. -/
theorem C8_setup_network_witness :
    ((setup_network ⟨true, fun _ => "+CREG: 0,2", "+SAPBR: 1,1,\"10.64.12.9\""⟩).events.count
        NetEv.creg = 10 ∧
      (setup_network ⟨true, fun _ => "+CREG: 0,2", "+SAPBR: 1,1,\"10.64.12.9\""⟩).events.count
        NetEv.sleep2 = 10 ∧
      NetEv.sapbrOpen ∈
        (setup_network ⟨true, fun _ => "+CREG: 0,2", "+SAPBR: 1,1,\"10.64.12.9\""⟩).events) ∧
    ((setup_network ⟨true, fun _ => "+CREG: 0,2", "+SAPBR: 1,1,\"10.64.12.9\""⟩).ok = true ∧
      (setup_network ⟨true, fun _ => "+CREG: 0,2", "+SAPBR: 1,1,\"10.64.12.9\""⟩).msg =
        (⟨true, fun _ => "+CREG: 0,2", "+SAPBR: 1,1,\"10.64.12.9\""⟩ :
          NetEnv).sapbrResp) :=
  ⟨(C8_setup_network ⟨true, fun _ => "+CREG: 0,2",
      "+SAPBR: 1,1,\"10.64.12.9\""⟩).2.2.1 rfl (fun _ => rfl),
    ((C8_setup_network ⟨true, fun _ => "+CREG: 0,2",
      "+SAPBR: 1,1,\"10.64.12.9\""⟩).2.2.2 rfl).2 (by decide)⟩

/-!
Harvest & Upload Orchestrator: `harvest_and_upload` (main.py, lines
116-212).  The scan result (`files`), the network-setup outcome and the
per-file upload outcomes are the environment; the function returns the
overall flag, the files deleted from the volume and the files that
remain on it.
-/

/-- Environment of one harvest cycle. -/
structure HarvestEnv where
  mountOk : Bool
  files : List String
  netOk : Bool
  upOk : String → Bool

/-- Per-file upload loop (main.py, lines 175-196): upload each file in
turn and delete it exactly when its own upload returned success; a
failed file is left in place and the loop continues.  Returns
(uploaded, failed, deleted, remaining). -/
def uploadPass (upOk : String → Bool) :
    List String → Nat × Nat × List String × List String
  | [] => (0, 0, [], [])
  | f :: rest =>
    let r := uploadPass upOk rest
    if upOk f then (r.1 + 1, r.2.1, f :: r.2.2.1, r.2.2.2)
    else (r.1, r.2.1 + 1, r.2.2.1, f :: r.2.2.2)

/-- Result of one harvest cycle. -/
structure HarvestOut where
  ok : Bool
  deleted : List String
  remaining : List String
deriving Repr

/-- `harvest_and_upload` (main.py, lines 116-212): unload the gadget,
mount locally (failure re-enables the gadget and changes nothing), scan,
set up the network (failure leaves every file in place), upload each
file deleting exactly the confirmed ones, then remount the gadget. -/
def harvest_and_upload (e : HarvestEnv) : HarvestOut :=
  if !e.mountOk then ⟨false, [], e.files⟩
  else if e.files = [] then ⟨true, [], []⟩
  else if !e.netOk then ⟨false, [], e.files⟩
  else
    let r := uploadPass e.upOk e.files
    ⟨decide (r.2.1 = 0), r.2.2.1, r.2.2.2⟩

/-- The upload loop deletes exactly the files whose upload succeeded and
leaves exactly the files whose upload failed. -/
theorem uploadPass_filter (upOk : String → Bool) :
    ∀ l : List String,
      (uploadPass upOk l).2.2.1 = l.filter upOk ∧
      (uploadPass upOk l).2.2.2 = l.filter (fun f => !upOk f) := by
  intro l
  induction l with
  | nil => exact ⟨rfl, rfl⟩
  | cons f rest ih =>
    unfold uploadPass
    cases h : upOk f with
    | true => simp [h, List.filter_cons, ih.1, ih.2]
    | false => simp [h, List.filter_cons, ih.1, ih.2]

/-- Claim C1: in a harvest cycle a file is deleted from the volume only
when its own upload returned success; a file whose upload failed remains
on the volume; and a mount failure or network-setup failure deletes
nothing. -/
theorem C1_no_silent_deletion (e : HarvestEnv) (f : String) :
    (f ∈ (harvest_and_upload e).deleted →
      f ∈ e.files ∧ e.upOk f = true) ∧
    (f ∈ e.files → e.upOk f = false →
      f ∈ (harvest_and_upload e).remaining ∧
      f ∉ (harvest_and_upload e).deleted) ∧
    (e.netOk = false → (harvest_and_upload e).deleted = []) ∧
    (e.mountOk = false → (harvest_and_upload e).deleted = []) := by
  obtain ⟨hdel, hrem⟩ := uploadPass_filter e.upOk e.files
  by_cases hm : e.mountOk = true
  · by_cases hfiles : e.files = []
    · refine ⟨?_, ?_, ?_, ?_⟩
      · intro hmem
        simp [harvest_and_upload, hm, hfiles] at hmem
      · intro hmem
        rw [hfiles] at hmem
        simp at hmem
      · intro _
        simp [harvest_and_upload, hm, hfiles]
      · intro hcontr
        rw [hm] at hcontr
        simp at hcontr
    · by_cases hn : e.netOk = true
      · have hh : harvest_and_upload e =
            ⟨decide ((uploadPass e.upOk e.files).2.1 = 0),
             (uploadPass e.upOk e.files).2.2.1,
             (uploadPass e.upOk e.files).2.2.2⟩ := by
          simp [harvest_and_upload, hm, hfiles, hn]
        rw [hh]
        refine ⟨?_, ?_, ?_, ?_⟩
        · intro hmem
          simp only [hdel, List.mem_filter] at hmem
          exact hmem
        · intro hmem hfail
          constructor
          · simp only [hrem, List.mem_filter]
            exact ⟨hmem, by simp [hfail]⟩
          · simp only [hdel, List.mem_filter]
            rintro ⟨_, hok⟩
            rw [hfail] at hok
            simp at hok
        · intro hcontr
          rw [hn] at hcontr
          simp at hcontr
        · intro hcontr
          rw [hm] at hcontr
          simp at hcontr
      · rw [Bool.not_eq_true] at hn
        have hh : harvest_and_upload e = ⟨false, [], e.files⟩ := by
          simp [harvest_and_upload, hm, hfiles, hn]
        rw [hh]
        refine ⟨?_, ?_, ?_, ?_⟩
        · intro hmem
          simp at hmem
        · intro hmem hfail
          exact ⟨hmem, by simp⟩
        · intro _
          rfl
        · intro _
          rfl
  · rw [Bool.not_eq_true] at hm
    have hh : harvest_and_upload e = ⟨false, [], e.files⟩ := by
      simp [harvest_and_upload, hm]
    rw [hh]
    refine ⟨?_, ?_, ?_, ?_⟩
    · intro hmem
      simp at hmem
    · intro hmem hfail
      exact ⟨hmem, by simp⟩
    · intro _
      rfl
    · intro _
      rfl

/-- Witness for claim C1: with two files of which only the first
uploads, the failed file remains and is not deleted. -/
theorem C1_no_silent_deletion_witness :
    "b" ∈ (harvest_and_upload
      ⟨true, ["a", "b"], true, fun f => f == "a"⟩).remaining ∧
    "b" ∉ (harvest_and_upload
      ⟨true, ["a", "b"], true, fun f => f == "a"⟩).deleted :=
  (C1_no_silent_deletion ⟨true, ["a", "b"], true, fun f => f == "a"⟩
    "b").2.1 (by decide) (by decide)

/-!
Gadget duty-cycle state and the boot phase: `main` and
`startup_upload_phase` (main.py, lines 248-265, 275-360, 362-396).
`SysState` records whether the USB mass-storage gadget module is loaded
(device exposed to the host) and whether the backing disk is mounted
locally.  The boot phase runs `startup_upload_phase` under an outer
retry loop bounded by `boot_upload_timeout`; the schedule lists, for
each outer iteration, the clock value at the `while` check and the
attempt's environment (an exhausted schedule models the clock having
passed the bound).
-/

/-- Exposure state of the backing block device. -/
structure SysState where
  gadget : Bool
  mounted : Bool
deriving DecidableEq, Repr

/-- `unload_usb_gadget` / `modprobe -r g_mass_storage`. -/
def unload_usb_gadget (s : SysState) : SysState :=
  { s with gadget := false }

/-- `load_usb_gadget`: loads the gadget module when modprobe succeeds. -/
def load_usb_gadget (ok : Bool) (s : SysState) : SysState :=
  if ok then { s with gadget := true } else s

/-- `mount_usb_disk`: cleans up any stale mount, then mounts; the disk
ends mounted exactly when the mount succeeded. -/
def mount_usb_disk (ok : Bool) (s : SysState) : SysState :=
  { s with mounted := ok }

/-- `unmount_usb_disk`: sync, settle, umount. -/
def unmount_usb_disk (s : SysState) : SysState :=
  { s with mounted := false }

/-- Python `f.endswith(suffix)`, modelled on character lists. -/
def pyEndsWith (f suffix : String) : Bool :=
  suffix.data.isSuffixOf f.data

/-- `get_pending_uploads` / the pending scan of `startup_upload_phase`
(main.py, lines 267-273 and 291-294): keep exactly the outbox entries
whose name ends with `.zip` or `.gz`. -/
def get_pending_uploads (listing : List String) : List String :=
  listing.filter (fun f => pyEndsWith f ".zip" || pyEndsWith f ".gz")

/-- Environment of one `startup_upload_phase` call. -/
structure BootEnv where
  mountOk : Bool
  outboxExists : Bool
  listing : List String
  netOk : Bool
  elapsedAfterNet : Nat
  timeUp : Nat → Bool
  fileStillExists : String → Bool
  upOk : String → Bool

/-- Boot upload loop (main.py, lines 331-354): walk the pending files;
stop when the overall timeout has been reached, skip vanished files,
otherwise attempt the upload (removing the file on success).  Returns
(attempted, removed). -/
def bootUploadLoop (timeUp : Nat → Bool) (fex upOk : String → Bool) :
    List String → Nat → List String × List String
  | [], _ => ([], [])
  | f :: rest, k =>
    if timeUp k then ([], [])
    else if !fex f then bootUploadLoop timeUp fex upOk rest (k + 1)
    else
      let r := bootUploadLoop timeUp fex upOk rest (k + 1)
      (f :: r.1, if upOk f then f :: r.2 else r.2)

/-- `startup_upload_phase` (main.py, lines 275-360): mount the disk (a
mount failure proceeds to USB mode with nothing mounted), scan the
outbox, and either return immediately (nothing pending), keep the disk
mounted and ask for a retry (network setup failed within the timeout),
or upload and unmount.  Returns (proceedToUsbMode, state, attempted). -/
def startup_upload_phase (e : BootEnv) (uploadTimeout : Nat)
    (s : SysState) : Bool × SysState × List String :=
  let s1 := mount_usb_disk e.mountOk s
  if !e.mountOk then (true, s1, [])
  else
    let pending :=
      if e.outboxExists then get_pending_uploads e.listing else []
    if pending = [] then (true, unmount_usb_disk s1, [])
    else if !e.netOk then
      if e.elapsedAfterNet < uploadTimeout then (false, s1, [])
      else (true, unmount_usb_disk s1, [])
    else
      let r := bootUploadLoop e.timeUp e.fileStillExists e.upOk pending 0
      (true, unmount_usb_disk s1, r.1)

/-- The boot retry loop of `main` (main.py, lines 384-387): while the
clock read at the check is within `boot_upload_timeout`, run
`startup_upload_phase` and stop as soon as it asks to proceed. -/
def bootLoop (uploadTimeout bootTimeout bootStart : Nat) :
    List (Nat × BootEnv) → SysState → SysState
  | [], s => s
  | (now, e) :: rest, s =>
    if now - bootStart < bootTimeout then
      let r := startup_upload_phase e uploadTimeout s
      if r.1 then r.2.1
      else bootLoop uploadTimeout bootTimeout bootStart rest r.2.1
    else s

/-- The boot phase of `main` (main.py, lines 374-396): unload the
gadget, run the bounded retry loop, then load the gadget. -/
def mainBootPhase (uploadTimeout bootTimeout bootStart : Nat)
    (sched : List (Nat × BootEnv)) (loadOk : Bool) (s0 : SysState) :
    SysState :=
  load_usb_gadget loadOk
    (bootLoop uploadTimeout bootTimeout bootStart sched
      (unload_usb_gadget s0))

/-- Boot attempt in which a pending `.zip` file is found but network
setup fails within the per-attempt timeout, so `startup_upload_phase`
returns `False` and deliberately keeps the disk mounted for the retry
(main.py, line 319-320). -/
def netFailAttempt : BootEnv :=
  ⟨true, true, ["a.zip"], false, 5, fun _ => false, fun _ => true,
    fun _ => false⟩

/-- Claim C2 (code bug): with `boot_upload_timeout = 180`, an attempt at
t = 0 that fails network setup returns `False` keeping the disk mounted;
when the next `while` check happens at t = 200 the outer loop exits by
timeout without ever unmounting, and `main` loads the USB gadget while
the disk is still locally mounted — the device is simultaneously exposed
to the host and mounted locally, violating the exclusivity invariant. -/
theorem C2_exclusivity_code_bug :
    (mainBootPhase 180 180 0 [(0, netFailAttempt), (200, netFailAttempt)]
      true ⟨false, false⟩).gadget = true ∧
    (mainBootPhase 180 180 0 [(0, netFailAttempt), (200, netFailAttempt)]
      true ⟨false, false⟩).mounted = true := by
  constructor <;> rfl

/-- Claim C10 (corrected): only outbox entries ending in `.zip` or `.gz`
are collected during the boot drain; a queued file named `data.txt` is
neither collected nor has any upload attempted, refuting "regardless of
the file's name or extension". -/
theorem C10_counterexample :
    get_pending_uploads ["data.txt"] = [] ∧
    (startup_upload_phase
      ⟨true, true, ["data.txt"], true, 0, fun _ => false,
        fun _ => true, fun _ => true⟩ 180 ⟨false, false⟩).2.2 = [] := by
  constructor <;> rfl

/-- With the overall timeout never reached and every file still present,
the boot upload loop attempts every pending file. -/
theorem bootUploadLoop_all (timeUp : Nat → Bool)
    (fex upOk : String → Bool) (ht : ∀ k, timeUp k = false)
    (hx : ∀ g, fex g = true) :
    ∀ (l : List String) (k : Nat),
      (bootUploadLoop timeUp fex upOk l k).1 = l := by
  intro l
  induction l with
  | nil => intro k; rfl
  | cons f rest ih =>
    intro k
    unfold bootUploadLoop
    rw [ht k, hx f]
    simp [ih (k + 1)]

/-- Claim C10 (amended): during the boot-time drain, every queued file
whose name ends in `.zip` or `.gz` is collected, and — when the disk
mounts, the outbox exists, network setup succeeds, the bounded overall
timeout is not reached and the file is still present — an upload is
attempted for it. -/
theorem C10_boot_drain (e : BootEnv) (uploadTimeout : Nat) (s : SysState)
    (f : String) (hm : e.mountOk = true) (ho : e.outboxExists = true)
    (hn : e.netOk = true) (ht : ∀ k, e.timeUp k = false)
    (hx : ∀ g, e.fileStillExists g = true) (hf : f ∈ e.listing)
    (hz : pyEndsWith f ".zip" = true ∨ pyEndsWith f ".gz" = true) :
    f ∈ get_pending_uploads e.listing ∧
    f ∈ (startup_upload_phase e uploadTimeout s).2.2 := by
  have hpend : f ∈ get_pending_uploads e.listing := by
    simp only [get_pending_uploads, List.mem_filter]
    refine ⟨hf, ?_⟩
    rcases hz with h | h <;> simp [h]
  refine ⟨hpend, ?_⟩
  have hne : ¬(get_pending_uploads e.listing = []) := by
    intro h
    rw [h] at hpend
    simp at hpend
  unfold startup_upload_phase
  rw [hm]
  simp only [Bool.not_true, Bool.false_eq_true, if_false, ho, if_true,
    hne, hn]
  rw [bootUploadLoop_all e.timeUp e.fileStillExists e.upOk ht hx]
  exact hpend

/-- Witness for the amended claim C10: `a.zip` queued next to `b.txt` is
collected and attempted. -/
theorem C10_boot_drain_witness :
    "a.zip" ∈ get_pending_uploads ["a.zip", "b.txt"] ∧
    "a.zip" ∈ (startup_upload_phase
      ⟨true, true, ["a.zip", "b.txt"], true, 0, fun _ => false,
        fun _ => true, fun _ => true⟩ 180 ⟨false, false⟩).2.2 :=
  C10_boot_drain
    ⟨true, true, ["a.zip", "b.txt"], true, 0, fun _ => false,
      fun _ => true, fun _ => true⟩ 180 ⟨false, false⟩ "a.zip" rfl rfl
    rfl (fun _ => rfl) (fun _ => rfl) (by decide) (Or.inl (by decide))

end Airbridge
